import Mathlib

set_option autoImplicit false

/-!
# Verification of the multibridge connection-lifecycle manager

Shallow embedding of the TypeScript sources:
* `src/utils/lruCache.ts`   — the bounded aging cache (`LRUCache`);
* `src/utils/rateLimiter.ts` — the per-key fixed-window rate limiter;
* `src/connections/connectionManager.ts` — retry/backoff, lazy validation,
  the synchronous prefix of `getConnection`, `closeConnection`,
  `closeAllConnections`;
* `src/context/tenantContext.ts` — tenant-identity validation and
  `runWithTenant`.

JS `Map` iteration order (insertion order, in-place update on re-`set`) is
modelled by association lists; timestamps (`Date.now()`) are explicit `Nat`
arguments threaded through every operation.
-/

namespace Multibridge

/-! ## Association-list helpers mirroring JS `Map` semantics -/

/-- First value bound to `k`, scanning in insertion order. -/
def lookupEntry {K V : Type} [DecidableEq K] (k : K) : List (K × V) → Option V
  | [] => none
  | (k', v) :: t => if k' = k then some v else lookupEntry k t

/-- In-place update of the entry for `k` (JS `map.set` on an existing key
keeps the key's position). -/
def updateEntry {K V : Type} [DecidableEq K] (k : K) (f : V → V) : List (K × V) → List (K × V)
  | [] => []
  | (k', v) :: t => if k' = k then (k', f v) :: t else (k', v) :: updateEntry k f t

/-- JS `map.delete`: removes the entry for `k`, preserving the rest. -/
def eraseEntry {K V : Type} [DecidableEq K] (k : K) : List (K × V) → List (K × V)
  | [] => []
  | (k', v) :: t => if k' = k then t else (k', v) :: eraseEntry k t

/-! ## `src/utils/lruCache.ts` -/

/-- `interface CacheEntry<T> { value: T; lastAccessed: number }` -/
structure CacheEntry (V : Type) where
  value : V
  lastAccessed : Nat
deriving Repr, DecidableEq

/-- `class LRUCache<K, V>`: a JS `Map` plus `maxSize` and optional `ttl`.
`ttl = 0` stands for the disabled TTL (the source guards with the falsy
check `if (this.ttl && ...)`, so `ttl = 0` never expires anything). -/
structure LRUCache (K V : Type) where
  entries : List (K × CacheEntry V)
  maxSize : Nat
  ttl : Nat
deriving Repr, DecidableEq

namespace LRUCache

variable {K V : Type} [DecidableEq K]

/-- `LRUCache.get`: miss returns `undefined`; an entry older than the TTL is
deleted and treated as a miss; on a hit `lastAccessed` is refreshed in place
(the `Map` is *not* reordered). Returns the result and the mutated cache. -/
def get (c : LRUCache K V) (k : K) (now : Nat) : Option V × LRUCache K V :=
  match lookupEntry k c.entries with
  | none => (none, c)
  | some e =>
    if c.ttl ≠ 0 ∧ now - e.lastAccessed > c.ttl then
      (none, { c with entries := eraseEntry k c.entries })
    else
      (some e.value,
       { c with entries := updateEntry k (fun e' => { e' with lastAccessed := now }) c.entries })

/-- `LRUCache.set`: an existing key is updated in place; otherwise, when
`size >= maxSize`, the *first* key of the `Map` (`keys().next().value`, i.e.
the oldest-inserted entry) is deleted, and the new entry is appended. -/
def set (c : LRUCache K V) (k : K) (v : V) (now : Nat) : LRUCache K V :=
  if (lookupEntry k c.entries).isSome then
    { c with entries := updateEntry k (fun _ => ⟨v, now⟩) c.entries }
  else
    let entries1 :=
      if c.entries.length ≥ c.maxSize then
        match c.entries with
        | [] => ([] : List (K × CacheEntry V))
        | _ :: t => t
      else c.entries
    { c with entries := entries1 ++ [(k, ⟨v, now⟩)] }

/-- `LRUCache.delete`. -/
def delete (c : LRUCache K V) (k : K) : LRUCache K V :=
  { c with entries := eraseEntry k c.entries }

/-- `LRUCache.clear`. -/
def clear (c : LRUCache K V) : LRUCache K V :=
  { c with entries := [] }

/-- `LRUCache.size`. -/
def size (c : LRUCache K V) : Nat :=
  c.entries.length

end LRUCache

/-- One externally visible cache operation (the operations the repository
invokes on its two `LRUCache` instances). -/
inductive CacheOp (K V : Type) where
  | get (k : K) (now : Nat)
  | set (k : K) (v : V) (now : Nat)
  | del (k : K)
  | clear
deriving Repr

/-- Apply one operation (the value returned by `get` is discarded; only the
state matters for the size invariant). -/
def applyOp {K V : Type} [DecidableEq K] (c : LRUCache K V) : CacheOp K V → LRUCache K V
  | .get k now => (c.get k now).2
  | .set k v now => c.set k v now
  | .del k => c.delete k
  | .clear => c.clear

/-- Apply a whole sequence of cache operations, oldest first. -/
def applyOps {K V : Type} [DecidableEq K] (c : LRUCache K V) (ops : List (CacheOp K V)) :
    LRUCache K V :=
  ops.foldl applyOp c

/-! ### Structural lemmas about the helpers -/

theorem updateEntry_length {K V : Type} [DecidableEq K] (k : K) (f : V → V) :
    ∀ l : List (K × V), (updateEntry k f l).length = l.length := by
  intro l
  induction l with
  | nil => rfl
  | cons p t ih =>
    obtain ⟨k', v⟩ := p
    by_cases h : k' = k <;> simp [updateEntry, h, ih]

theorem eraseEntry_length_le {K V : Type} [DecidableEq K] (k : K) :
    ∀ l : List (K × V), (eraseEntry k l).length ≤ l.length := by
  intro l
  induction l with
  | nil => exact Nat.le_refl _
  | cons p t ih =>
    obtain ⟨k', v⟩ := p
    by_cases h : k' = k
    · simp only [eraseEntry, if_pos h, List.length_cons]
      exact Nat.le_succ _
    · simp only [eraseEntry, if_neg h, List.length_cons]
      exact Nat.succ_le_succ ih

theorem applyOp_maxSize {K V : Type} [DecidableEq K] (c : LRUCache K V) (op : CacheOp K V) :
    (applyOp c op).maxSize = c.maxSize := by
  cases op with
  | get k now =>
    simp only [applyOp, LRUCache.get]
    split
    · rfl
    · split <;> rfl
  | set k v now =>
    simp only [applyOp, LRUCache.set]
    split <;> rfl
  | del k => rfl
  | clear => rfl

/-- One cache operation preserves `size ≤ maxSize`, provided the capacity is
at least 1. -/
theorem applyOp_size_le {K V : Type} [DecidableEq K] (c : LRUCache K V) (op : CacheOp K V)
    (hcap : 1 ≤ c.maxSize) (hinv : c.size ≤ c.maxSize) :
    (applyOp c op).size ≤ c.maxSize := by
  cases op with
  | get k now =>
    simp only [applyOp, LRUCache.get]
    split
    · exact hinv
    · split
      · exact Nat.le_trans (eraseEntry_length_le k c.entries) hinv
      · show (updateEntry k _ c.entries).length ≤ c.maxSize
        rw [updateEntry_length]
        exact hinv
  | set k v now =>
    simp only [applyOp, LRUCache.set]
    by_cases h : (lookupEntry k c.entries).isSome
    · simp only [if_pos h, LRUCache.size]
      rw [updateEntry_length]
      exact hinv
    · simp only [if_neg h, LRUCache.size]
      have hinv' : c.entries.length ≤ c.maxSize := hinv
      by_cases hfull : c.entries.length ≥ c.maxSize
      · simp only [if_pos hfull]
        cases hc : c.entries with
        | nil =>
          rw [hc] at hfull
          simp only [List.length_nil, ge_iff_le, Nat.le_zero] at hfull
          exact absurd hcap (by omega)
        | cons p t =>
          rw [hc] at hinv' hfull
          simp only [List.length_cons] at hinv' hfull
          show (t ++ [(k, (⟨v, now⟩ : CacheEntry V))]).length ≤ c.maxSize
          simp only [List.length_append, List.length_cons, List.length_nil]
          omega
      · simp only [if_neg hfull, List.length_append, List.length_cons, List.length_nil]
        omega
  | del k =>
    simp only [applyOp, LRUCache.delete, LRUCache.size]
    exact Nat.le_trans (eraseEntry_length_le k c.entries) hinv
  | clear =>
    simp only [applyOp, LRUCache.clear, LRUCache.size, List.length_nil]
    exact Nat.zero_le _

theorem applyOps_size_le {K V : Type} [DecidableEq K] (ops : List (CacheOp K V))
    (c : LRUCache K V) (hcap : 1 ≤ c.maxSize) (hinv : c.size ≤ c.maxSize) :
    (applyOps c ops).size ≤ c.maxSize := by
  induction ops generalizing c with
  | nil => exact hinv
  | cons op t ih =>
    have hmax := applyOp_maxSize c op
    have hstep := applyOp_size_le c op hcap hinv
    have := ih (applyOp c op) (by rw [hmax]; exact hcap) (by rw [hmax]; exact hstep)
    simpa [applyOps, hmax] using this

/-! ### Claim C9 — cache size bound -/

/-- Claim C9 (amended: capacity at least 1): starting from an empty cache of
capacity `maxSize ≥ 1`, no sequence of `get`/`set`/`delete`/`clear`
operations ever makes the size exceed `maxSize`. -/
theorem lru_size_le_capacity {K V : Type} [DecidableEq K] (ops : List (CacheOp K V))
    (maxSize ttl : Nat) (hcap : 1 ≤ maxSize) :
    (applyOps (⟨[], maxSize, ttl⟩ : LRUCache K V) ops).size ≤ maxSize := by
  exact applyOps_size_le ops _ hcap (Nat.zero_le _)

theorem lru_size_le_capacity_witness :
    1 ≤ 2 ∧
    (applyOps (⟨[], 2, 0⟩ : LRUCache String Nat)
      [.set "a" 1 1, .set "b" 2 2, .set "c" 3 3, .get "a" 4, .set "d" 4 5]).size ≤ 2 :=
  ⟨by decide,
   lru_size_le_capacity [.set "a" 1 1, .set "b" 2 2, .set "c" 3 3, .get "a" 4, .set "d" 4 5]
     2 0 (by decide)⟩

/-- Claim C9 counterexample: with configured capacity 0 (reachable via
`CONNECTION_CACHE_MAX_SIZE=0`), a single `set` on the empty cache inserts
without evicting (`keys().next().value` is `undefined`), so the size exceeds
the capacity. -/
theorem lru_capacity_zero_counterexample :
    (applyOps (⟨[], 0, 0⟩ : LRUCache String Nat) [.set "a" 1 1]).size = 1 ∧
    ¬ (applyOps (⟨[], 0, 0⟩ : LRUCache String Nat) [.set "a" 1 1]).size ≤ 0 := by
  decide

/-! ### Claim C2 — which entry is evicted -/

/-- Claim C2 evaluation at the failing input (capacity 2, TTL disabled;
`set a; set b; get a; set c`): just before the overflowing `set`, entry `a`
was accessed at time 3 and entry `b` at time 2, so `b` is the
least-recently-accessed entry — yet `set c` evicts `a` (the `Map`'s first,
i.e. oldest-inserted, key), because `get` refreshes `lastAccessed` without
reordering the `Map` and eviction takes `keys().next().value`. -/
theorem lru_evicts_first_inserted_not_lru :
    lookupEntry "a"
      (LRUCache.get
        (LRUCache.set (LRUCache.set (⟨[], 2, 0⟩ : LRUCache String Nat) "a" 1 1) "b" 2 2)
        "a" 3).2.entries = some ⟨1, 3⟩ ∧
    lookupEntry "b"
      (LRUCache.get
        (LRUCache.set (LRUCache.set (⟨[], 2, 0⟩ : LRUCache String Nat) "a" 1 1) "b" 2 2)
        "a" 3).2.entries = some ⟨2, 2⟩ ∧
    (LRUCache.set
      (LRUCache.get
        (LRUCache.set (LRUCache.set (⟨[], 2, 0⟩ : LRUCache String Nat) "a" 1 1) "b" 2 2)
        "a" 3).2 "c" 3 4).entries.map Prod.fst = ["b", "c"] := by
  decide

/-! ## `src/utils/rateLimiter.ts` -/

/-- `interface RateLimitEntry { count: number; resetTime: number }` -/
structure RateLimitEntry where
  count : Nat
  resetTime : Nat
deriving Repr, DecidableEq

/-- JS `map.set`: update in place when present, append when absent. -/
def setMapEntry {K V : Type} [DecidableEq K] (k : K) (v : V) (l : List (K × V)) :
    List (K × V) :=
  if (lookupEntry k l).isSome then updateEntry k (fun _ => v) l else l ++ [(k, v)]

/-- The rate limiter's `limits` map. -/
abbrev RateState := List (String × RateLimitEntry)

namespace RateLimiter

/-- `RateLimiter.check(key)`: absent or expired window ⇒ start a fresh window
with `count = 1` and admit; full window ⇒ reject without mutation; otherwise
increment the count and admit. -/
def check (maxRequests windowMs : Nat) (limits : RateState) (key : String) (now : Nat) :
    Bool × RateState :=
  match lookupEntry key limits with
  | none => (true, setMapEntry key ⟨1, now + windowMs⟩ limits)
  | some e =>
    if now > e.resetTime then
      (true, setMapEntry key ⟨1, now + windowMs⟩ limits)
    else if e.count ≥ maxRequests then
      (false, limits)
    else
      (true, updateEntry key (fun e' => { e' with count := e'.count + 1 }) limits)

/-- `RateLimiter.reset(key)`. -/
def reset (limits : RateState) (key : String) : RateState :=
  eraseEntry key limits

/-- `RateLimiter.clear()`. -/
def clear (_limits : RateState) : RateState :=
  []

end RateLimiter

/-! ## Retry with exponential backoff (`connectionManager.ts`) -/

/-- The substring patterns of `isRetryableError`. -/
def retryablePatterns : List String :=
  ["econnrefused", "etimedout", "timeout", "econnreset", "enotfound",
   "temporary", "retry", "connection"]

/-- `pat` is a leading segment of `l`. -/
def isPrefixChars : List Char → List Char → Bool
  | [], _ => true
  | _ :: _, [] => false
  | a :: as, b :: bs => a == b && isPrefixChars as bs

/-- JS `String.prototype.includes`: `pat` occurs somewhere in `l`. -/
def containsChars (pat : List Char) : List Char → Bool
  | [] => pat.isEmpty
  | b :: bs => isPrefixChars pat (b :: bs) || containsChars pat bs

/-- `isRetryableError`: lowercases the message (a missing message is the
empty string, and a nullish error was already mapped to `false` — the empty
string matches no pattern) and tests each transient pattern for substring
occurrence. -/
def isRetryableError (message : String) : Bool :=
  let msg := message.data.map Char.toLower
  retryablePatterns.any (fun pattern => containsChars pattern.data msg)

/-- Observable result of `_createConnectionWithRetry`: the settled outcome
(`ok` handle or the propagated error message), how many times
`_createConnection` ran, and the sequence of backoff delays awaited. -/
structure RetryResult where
  outcome : Except String Nat
  connectCalls : Nat
  delays : List Nat
deriving Repr

/-- `_createConnectionWithRetry(dbConfig, schema, attempt)`: on failure it
retries only when the error is retryable and `attempt < maxAttempts`
(`if (!isRetryable || attempt >= maxAttempts) throw`), sleeping
`baseDelay * 2^(attempt-1)` first. `connect` is the oracle giving each
attempt's outcome. `fuel` only makes the recursion structural; every call
keeps `maxAttempts - attempt ≤ fuel`, so the retry branch is reached with
`fuel = 0` on no invocation from the wrapper below (both equations mirror
the same source line: with `fuel = 0` the guard `attempt < maxAttempts`
is false whenever the invariant holds, and the function throws). -/
def createConnectionWithRetry (connect : Nat → Except String Nat)
    (maxAttempts baseDelay : Nat) : Nat → Nat → RetryResult
  | attempt, 0 =>
    match connect attempt with
    | .ok h => ⟨.ok h, 1, []⟩
    | .error e => ⟨.error e, 1, []⟩
  | attempt, fuel + 1 =>
    match connect attempt with
    | .ok h => ⟨.ok h, 1, []⟩
    | .error e =>
      if isRetryableError e ∧ attempt < maxAttempts then
        let d := baseDelay * 2 ^ (attempt - 1)
        let r := createConnectionWithRetry connect maxAttempts baseDelay (attempt + 1) fuel
        ⟨r.outcome, r.connectCalls + 1, d :: r.delays⟩
      else ⟨.error e, 1, []⟩

/-- The manager invokes the retry helper with `attempt = 1`. -/
def runCreateWithRetry (connect : Nat → Except String Nat)
    (maxAttempts baseDelay : Nat) : RetryResult :=
  createConnectionWithRetry connect maxAttempts baseDelay 1 maxAttempts

/-- The backoff schedule as the source computes it: `n` delays starting at
attempt number `a`, the first being `b * 2^(a-1)` and each next doubling. -/
def backoffDelays (b : Nat) : Nat → Nat → List Nat
  | _, 0 => []
  | a, n + 1 => b * 2 ^ (a - 1) :: backoffDelays b (a + 1) n

theorem backoffDelays_eq_map (b : Nat) :
    ∀ n a, 1 ≤ a →
      backoffDelays b a n = (List.range n).map (fun i => b * 2 ^ (a - 1 + i)) := by
  intro n
  induction n with
  | zero => intro a _; simp [backoffDelays]
  | succ n ih =>
    intro a ha
    rw [backoffDelays, ih (a + 1) (by omega), List.range_succ_eq_map, List.map_cons,
      List.map_map]
    congr 1
    simp
    intro i _
    omega

/-- Behaviour under a persistently transient failure, for any starting
attempt number. -/
theorem createWithRetry_transient (e : String) (he : isRetryableError e = true)
    (m b : Nat) :
    ∀ fuel attempt, 1 ≤ attempt → attempt ≤ m → m - attempt ≤ fuel →
      createConnectionWithRetry (fun _ => .error e) m b attempt fuel =
        ⟨.error e, m - attempt + 1, backoffDelays b attempt (m - attempt)⟩ := by
  intro fuel
  induction fuel with
  | zero =>
    intro attempt h1 h2 h3
    have hma : attempt = m := by omega
    subst hma
    simp [createConnectionWithRetry, Nat.sub_self, backoffDelays]
  | succ f ih =>
    intro attempt h1 h2 h3
    by_cases hlt : attempt < m
    · rw [createConnectionWithRetry]
      simp only [he, hlt, and_self, if_true, true_and]
      rw [ih (attempt + 1) (by omega) (by omega) (by omega)]
      have hrange : m - attempt = (m - (attempt + 1)) + 1 := by omega
      rw [hrange, backoffDelays]
    · have hma : attempt = m := by omega
      subst hma
      rw [createConnectionWithRetry]
      simp [Nat.sub_self, backoffDelays]

/-! ### Claim C3 — retry counts and backoff delays -/

/-- Claim C3 (amended): when every attempt fails with a transient error, the
configured value bounds the *total* number of `_createConnection` calls — so
the failure is retried exactly `maxAttempts - 1` times (2 with the default
3), with the delay before the k-th retry equal to `baseDelay * 2^(k-1)`;
a non-transient failure is never retried and propagates after a single
attempt. -/
theorem retry_policy (m b : Nat) (hm : 1 ≤ m) (et en : String)
    (het : isRetryableError et = true) (hen : isRetryableError en = false) :
    runCreateWithRetry (fun _ => .error et) m b =
      ⟨.error et, m, (List.range (m - 1)).map (fun i => b * 2 ^ i)⟩ ∧
    runCreateWithRetry (fun _ => .error en) m b = ⟨.error en, 1, []⟩ := by
  constructor
  · have h := createWithRetry_transient et het m b m 1 (Nat.le_refl 1) hm (by omega)
    rw [runCreateWithRetry, h, backoffDelays_eq_map b (m - 1) 1 (Nat.le_refl 1)]
    have hc : m - 1 + 1 = m := by omega
    rw [hc]
    simp
  · rw [runCreateWithRetry]
    cases m with
    | zero => omega
    | succ m' =>
      rw [createConnectionWithRetry]
      simp [hen]

theorem retry_policy_witness :
    (1 ≤ 3 ∧ isRetryableError "timeout" = true ∧ isRetryableError "denied" = false) ∧
    runCreateWithRetry (fun _ => .error "timeout") 3 1000 =
      ⟨.error "timeout", 3, (List.range (3 - 1)).map (fun i => 1000 * 2 ^ i)⟩ ∧
    runCreateWithRetry (fun _ => .error "denied") 3 1000 = ⟨.error "denied", 1, []⟩ :=
  ⟨⟨by decide, by decide, by decide⟩,
   retry_policy 3 1000 (by decide) "timeout" "denied" (by decide) (by decide)⟩

/-- Claim C3 counterexample: with the default configuration
(`CONNECTION_RETRY_ATTEMPTS = 3`, base delay 1000 ms) and a persistently
transient failure, the code makes 3 attempts in total, i.e. only 2 retries
with delays 1000 and 2000 ms — not the 3 retries the claim states. -/
theorem retry_count_counterexample :
    (runCreateWithRetry (fun _ => .error "timeout") 3 1000).connectCalls = 3 ∧
    (runCreateWithRetry (fun _ => .error "timeout") 3 1000).delays = [1000, 2000] ∧
    (runCreateWithRetry (fun _ => .error "timeout") 3 1000).delays.length ≠ 3 := by
  decide

/-! ## `src/context/tenantContext.ts` -/

/-- `interface ConnectVo { appid; orgid; appdbname }` -/
structure ConnectVo where
  appid : String
  orgid : String
  appdbname : String
deriving Repr, DecidableEq

/-- One character of `VALID_ID_PATTERN = /^[a-zA-Z0-9_\-\.]+$/`. -/
def validIdChar (c : Char) : Bool :=
  ('a' ≤ c && c ≤ 'z') || ('A' ≤ c && c ≤ 'Z') || ('0' ≤ c && c ≤ '9') ||
    c == '_' || c == '-' || c == '.'

/-- `VALID_ID_PATTERN.test(value)`: at least one character, all from the
class. -/
def validIdPattern (s : String) : Bool :=
  !s.data.isEmpty && s.data.all validIdChar

/-- The three checks `validateTenantInput` runs for one field, in source
order (`!value` catches the empty string; the `typeof` check cannot fail
for a well-typed caller). At most one message per field is produced. -/
def validateField (name value : String) : List String :=
  if value = "" then
    [name ++ " is required and must be a string"]
  else if value.length < 1 ∨ value.length > 255 then
    [name ++ " must be between 1 and 255 characters"]
  else if validIdPattern value = false then
    [name ++ " contains invalid characters. Only alphanumeric, underscore, hyphen, and dot are allowed"]
  else
    []

/-- `validateTenantInput`: the `errors` array after the three field blocks. -/
def validateTenantInput (t : ConnectVo) : List String :=
  validateField "appid" t.appid ++ validateField "orgid" t.orgid ++
    validateField "appdbname" t.appdbname

/-- `runWithTenant` up to its first suspension point: a non-empty `errors`
array throws `ValidationError` before `tenantContext.run` is entered, hence
before any configuration lookup or connect. The second component counts
network interactions initiated (eager `getConnection` unless
`lazyConnection`). -/
def runWithTenant (t : ConnectVo) (lazyConnection : Bool) : Except String Unit × Nat :=
  match validateTenantInput t with
  | [] => (.ok (), if lazyConnection then 0 else 1)
  | errs => (.error ("Invalid tenant input: " ++ String.intercalate "; " errs), 0)

/-- The claim's notion of a malformed field: empty, longer than 255
characters, or containing a character outside `[A-Za-z0-9_.-]`. -/
def malformedField (v : String) : Bool :=
  v == "" || decide (v.length > 255) || !(v.data.all validIdChar)

/-- `pre` is a literal prefix of `s` (how we read "the message names the
field"). -/
def strStarts (s pre : String) : Bool :=
  isPrefixChars pre.data s.data

theorem string_eq_empty_iff (v : String) : v = "" ↔ v.data = [] := by
  constructor
  · intro h; rw [h]
  · intro h
    cases v with
    | mk d =>
      simp only at h
      rw [h]

/-- `validateField` produces a message satisfying `p` exactly when the field
is malformed, provided `p` accepts each of the three possible messages. -/
theorem validateField_any (name v : String) (p : String → Bool)
    (h1 : p (name ++ " is required and must be a string") = true)
    (h2 : p (name ++ " must be between 1 and 255 characters") = true)
    (h3 : p (name ++ " contains invalid characters. Only alphanumeric, underscore, hyphen, and dot are allowed") = true) :
    (validateField name v).any p = malformedField v := by
  unfold validateField malformedField
  by_cases hv : v = ""
  · subst hv
    simp [h1]
  · have hd : v.data ≠ [] := fun h => hv ((string_eq_empty_iff v).mpr h)
    have hlen1 : ¬ v.length < 1 := by
      have : v.data.length ≠ 0 := fun h => hd (List.eq_nil_of_length_eq_zero h)
      simp only [String.length]
      omega
    have hbeq : (v == "") = false := by
      simp only [beq_eq_false_iff_ne, ne_eq]
      exact hv
    rw [if_neg hv]
    by_cases hlong : v.length > 255
    · rw [if_pos (Or.inr hlong)]
      simp [h2, hbeq, hlong]
    · rw [if_neg (by tauto)]
      have hpat : validIdPattern v = (v.data.all validIdChar) := by
        unfold validIdPattern
        cases hdd : v.data with
        | nil => exact absurd hdd hd
        | cons c cs => simp
      by_cases hall : v.data.all validIdChar
      · rw [if_neg (by rw [hpat]; simp [hall])]
        simp [hbeq, hlong, hall]
      · rw [if_pos (by rw [hpat]; simp only [Bool.not_eq_true] at hall; exact hall)]
        simp [h3, hbeq, hlong, hall]

/-- `validateField` stays silent exactly when `p` rejects all messages. -/
theorem validateField_any_false (name v : String) (p : String → Bool)
    (h1 : p (name ++ " is required and must be a string") = false)
    (h2 : p (name ++ " must be between 1 and 255 characters") = false)
    (h3 : p (name ++ " contains invalid characters. Only alphanumeric, underscore, hyphen, and dot are allowed") = false) :
    (validateField name v).any p = false := by
  unfold validateField
  split
  · simp [h1]
  · split
    · simp [h2]
    · split
      · simp [h3]
      · rfl

/-! ### Claim C6 — validation fails fast and enumerates every bad field -/

/-- Claim C6: for every identity with at least one malformed field (empty,
longer than 255 characters, or containing a character outside
`[A-Za-z0-9_.-]`), `runWithTenant` fails with a `ValidationError` before any
network interaction (zero configuration lookups / connect attempts), and the
error list names a field — via a message starting with it — exactly when
that field is malformed, so every malformed field among `appid`, `orgid`,
`appdbname` is enumerated. -/
theorem tenant_validation_enumerates (t : ConnectVo) (lazy : Bool)
    (h : malformedField t.appid = true ∨ malformedField t.orgid = true ∨
         malformedField t.appdbname = true) :
    (∃ msg, runWithTenant t lazy = (.error msg, 0)) ∧
    (validateTenantInput t).any (fun e => strStarts e "appid") = malformedField t.appid ∧
    (validateTenantInput t).any (fun e => strStarts e "orgid") = malformedField t.orgid ∧
    (validateTenantInput t).any (fun e => strStarts e "appdbname") = malformedField t.appdbname := by
  have happ : (validateTenantInput t).any (fun e => strStarts e "appid") =
      malformedField t.appid := by
    rw [validateTenantInput, List.any_append, List.any_append,
      validateField_any "appid" t.appid _ (by decide) (by decide) (by decide),
      validateField_any_false "orgid" t.orgid _ (by decide) (by decide) (by decide),
      validateField_any_false "appdbname" t.appdbname _ (by decide) (by decide) (by decide)]
    simp
  have horg : (validateTenantInput t).any (fun e => strStarts e "orgid") =
      malformedField t.orgid := by
    rw [validateTenantInput, List.any_append, List.any_append,
      validateField_any_false "appid" t.appid _ (by decide) (by decide) (by decide),
      validateField_any "orgid" t.orgid _ (by decide) (by decide) (by decide),
      validateField_any_false "appdbname" t.appdbname _ (by decide) (by decide) (by decide)]
    simp
  have hdb : (validateTenantInput t).any (fun e => strStarts e "appdbname") =
      malformedField t.appdbname := by
    rw [validateTenantInput, List.any_append, List.any_append,
      validateField_any_false "appid" t.appid _ (by decide) (by decide) (by decide),
      validateField_any_false "orgid" t.orgid _ (by decide) (by decide) (by decide),
      validateField_any "appdbname" t.appdbname _ (by decide) (by decide) (by decide)]
    simp
  have hne : validateTenantInput t ≠ [] := by
    intro hnil
    rcases h with hm | hm | hm
    · rw [hnil] at happ; rw [hm] at happ; simp at happ
    · rw [hnil] at horg; rw [hm] at horg; simp at horg
    · rw [hnil] at hdb; rw [hm] at hdb; simp at hdb
  refine ⟨?_, happ, horg, hdb⟩
  cases hL : validateTenantInput t with
  | nil => exact absurd hL hne
  | cons e rest =>
    exact ⟨"Invalid tenant input: " ++ String.intercalate "; " (e :: rest),
      by rw [runWithTenant, hL]⟩

theorem tenant_validation_enumerates_witness :
    (malformedField "bad id!" = true ∨ malformedField "org1" = true ∨
     malformedField "schema1" = true) ∧
    ((∃ msg, runWithTenant ⟨"bad id!", "org1", "schema1"⟩ false = (.error msg, 0)) ∧
     (validateTenantInput ⟨"bad id!", "org1", "schema1"⟩).any
         (fun e => strStarts e "appid") = malformedField "bad id!" ∧
     (validateTenantInput ⟨"bad id!", "org1", "schema1"⟩).any
         (fun e => strStarts e "orgid") = malformedField "org1" ∧
     (validateTenantInput ⟨"bad id!", "org1", "schema1"⟩).any
         (fun e => strStarts e "appdbname") = malformedField "schema1") :=
  ⟨Or.inl (by decide),
   tenant_validation_enumerates ⟨"bad id!", "org1", "schema1"⟩ false (Or.inl (by decide))⟩

/-! ## `src/connections/connectionManager.ts`

The manager's shared state. The spec's scheduling model is single-threaded
cooperative concurrency, so the synchronous prefix of `getConnection` —
rate-limit check, pending-table check, cache check with lazy validation, and
(on a miss) registering the creation promise — runs as one uninterrupted
step; the creation promise settles in a separate step (its body suspends at
`fetchDBConfig` before touching the cache). Connection handles are opaque
`Nat` identifiers; "exactly one `connect()` invocation" is counted as the
number of establishment tasks begun (each such task performs its own
`_createConnectionWithRetry` run, settled above). -/

/-- `interface ConnectionData`. `lastValidated = 0` models the JS-falsy
values (`undefined` or epoch 0) that `needsValidation` treats as "never
validated"; real timestamps are positive. -/
structure ConnectionData where
  connection : Nat
  dbType : String
  lastValidated : Nat
deriving Repr, DecidableEq

/-- The `envConfig` knobs the manager reads. -/
structure MgrConfig where
  cacheMaxSize : Nat
  cacheTTL : Nat
  validationTTL : Nat
  maxRequests : Nat
  windowMs : Nat
deriving Repr, DecidableEq

/-- The `envConfig` defaults: cache 100 entries with no TTL, validation TTL
60000 ms, 10 requests per 60000 ms window. -/
def defaultConfig : MgrConfig :=
  ⟨100, 0, 60000, 10, 60000⟩

/-- The module-level mutable registries (`connectionCache`,
`pendingConnections`, `rateLimiter`), plus instrumentation: a fresh-promise
counter, the number of establishment tasks begun, and the number of
liveness probes issued. -/
structure MgrState where
  cache : LRUCache String ConnectionData
  pending : List (String × Nat)
  rate : RateState
  nextPid : Nat
  connectsStarted : Nat
  probes : Nat
deriving Repr, DecidableEq

/-- All registries empty, as at module load. -/
def initState (cfg : MgrConfig) : MgrState :=
  ⟨⟨[], cfg.cacheMaxSize, cfg.cacheTTL⟩, [], [], 0, 0, 0⟩

/-- `needsValidation(cached)`: falsy `lastValidated` ⇒ validate;
`CONNECTION_VALIDATION_TTL_MS <= 0` ⇒ never; otherwise compare the age
against the TTL. -/
def needsValidation (cfg : MgrConfig) (cached : ConnectionData) (now : Nat) : Bool :=
  if cached.lastValidated = 0 then true
  else if cfg.validationTTL = 0 then false
  else decide (now - cached.lastValidated > cfg.validationTTL)

/-- What one `getConnection` call observes at its first suspension point (or
return). -/
inductive GCResult where
  /-- `rateLimiter.check` returned false: `ConnectionError` thrown. -/
  | rateLimited
  /-- an in-flight creation exists: the caller awaits that same promise. -/
  | joined (pid : Nat)
  /-- fresh cached record: returned with no liveness probe. -/
  | reused (c : ConnectionData)
  /-- cached record needs validation: a probe was issued, caller suspends. -/
  | probing (c : ConnectionData)
  /-- cache miss: this caller begins establishment task `pid`. -/
  | started (pid : Nat)
deriving Repr, DecidableEq

/-- The synchronous prefix of `getConnection(tenant)` for cache key `key`:
rate-limit gate first, then the pending table, then the cache (whose `get`
may purge an expired entry), then lazy validation; a miss registers the
creation promise in `pendingConnections` before the caller suspends. -/
def getConnectionStart (cfg : MgrConfig) (st : MgrState) (key : String) (now : Nat) :
    GCResult × MgrState :=
  let checked := RateLimiter.check cfg.maxRequests cfg.windowMs st.rate key now
  if checked.1 = false then
    (.rateLimited, { st with rate := checked.2 })
  else
    match lookupEntry key st.pending with
    | some pid => (.joined pid, { st with rate := checked.2 })
    | none =>
      let looked := st.cache.get key now
      match looked.1 with
      | some cached =>
        if needsValidation cfg cached now then
          (.probing cached,
           { st with rate := checked.2, cache := looked.2, probes := st.probes + 1 })
        else
          (.reused cached, { st with rate := checked.2, cache := looked.2 })
      | none =>
        (.started st.nextPid,
         { st with rate := checked.2, cache := looked.2,
                   pending := st.pending ++ [(key, st.nextPid)],
                   nextPid := st.nextPid + 1,
                   connectsStarted := st.connectsStarted + 1 })

/-- The creation promise settles successfully: the record (with
`lastValidated = now`) is stored, then the `finally` clause removes the
pending entry — one uninterrupted step. Every caller holding this promise
receives this same record. -/
def settleOk (st : MgrState) (key : String) (conn : Nat) (dbType : String) (now : Nat) :
    MgrState :=
  { st with cache := st.cache.set key ⟨conn, dbType, now⟩ now,
            pending := eraseEntry key st.pending }

/-- The creation promise settles with an error (config missing, or retries
exhausted): only the `finally` clause runs — the pending entry is removed
and the cache is untouched. Every caller holding this promise receives this
same error. -/
def settleFail (st : MgrState) (key : String) : MgrState :=
  { st with pending := eraseEntry key st.pending }

/-- Continuation of the cache-hit path when validation was needed, after
`isConnectionValid` settles: healthy ⇒ refresh `lastValidated` and re-`set`;
stale ⇒ close (logged, best-effort), delete, and begin establishment as on
a miss. -/
def probeSettle (st : MgrState) (key : String) (cached : ConnectionData)
    (healthy : Bool) (now : Nat) : GCResult × MgrState :=
  if healthy then
    let updated := { cached with lastValidated := now }
    (.reused updated, { st with cache := st.cache.set key updated now })
  else
    (.started st.nextPid,
     { st with cache := st.cache.delete key,
               pending := st.pending ++ [(key, st.nextPid)],
               nextPid := st.nextPid + 1,
               connectsStarted := st.connectsStarted + 1 })

/-- `closeConnection(tenant)`: look the key up (the `get` may purge an
expired entry); on a hit, close (logged), delete from the cache, and reset
the key's rate window; otherwise do nothing further. Returns the records
actually closed. -/
def closeConnection (st : MgrState) (key : String) (now : Nat) :
    MgrState × List ConnectionData :=
  let looked := st.cache.get key now
  match looked.1 with
  | some cached =>
    ({ st with cache := looked.2.delete key, rate := RateLimiter.reset st.rate key },
     [cached])
  | none => ({ st with cache := looked.2 }, [])

/-- `_closeAndLog`: the close result is caught whatever it is; only a log
line differs. -/
def closeAndLog (closeResult : Except String Unit) : String :=
  match closeResult with
  | .ok _ => "closed"
  | .error e => "close error: " ++ e

/-- The snapshot loop of `closeAllConnections`: for each snapshotted key,
`connectionCache.get` (which can purge an expired entry) and keep the hits. -/
def collectLive (keys : List String) (cache : LRUCache String ConnectionData) (now : Nat) :
    List (String × ConnectionData) × LRUCache String ConnectionData :=
  match keys with
  | [] => ([], cache)
  | k :: ks =>
    let looked := cache.get k now
    let rest := collectLive ks looked.2 now
    match looked.1 with
    | some d => ((k, d) :: rest.1, rest.2)
    | none => rest

/-- `closeAllConnections()`: snapshot the keys, re-`get` each, close every
live entry through `_closeAndLog` (failures are swallowed there, so the
drain never aborts), then clear the cache, the pending table and the rate
limiter. `closer` gives each underlying `close()`'s outcome; the returned
list holds one log line per close attempt. -/
def closeAllConnections (st : MgrState) (closer : String → Except String Unit) (now : Nat) :
    MgrState × List String :=
  let keys := st.cache.entries.map Prod.fst
  let collected := collectLive keys st.cache now
  let logs := collected.1.map (fun kd => closeAndLog (closer kd.1))
  ({ st with cache := collected.2.clear, pending := [],
             rate := RateLimiter.clear st.rate },
   logs)

/-- `getConnectionStats()`. -/
def getConnectionStats (cfg : MgrConfig) (st : MgrState) : Nat × Nat × Nat :=
  (st.cache.size, st.pending.length, cfg.cacheMaxSize)

/-- `N` back-to-back `getConnection` prefixes for one key, none of them
settled in between (the claims' "concurrent calls issued before the first
resolves"). -/
def runCalls (cfg : MgrConfig) (key : String) (now : Nat) :
    Nat → MgrState → List GCResult × MgrState
  | 0, st => ([], st)
  | n + 1, st =>
    let step := getConnectionStart cfg st key now
    let rest := runCalls cfg key now n step.2
    (step.1 :: rest.1, rest.2)

/-! ### Shared computation lemmas for `getConnection` traces -/

/-- The first `getConnection` call on untouched state: a fresh rate window
opens, the creation task is begun as promise 0 and registered as pending. -/
theorem getConnectionStart_fresh (cfg : MgrConfig) (key : String) (now : Nat) :
    getConnectionStart cfg (initState cfg) key now =
      (.started 0,
       ⟨⟨[], cfg.cacheMaxSize, cfg.cacheTTL⟩, [(key, 0)],
        [(key, ⟨1, now + cfg.windowMs⟩)], 1, 1, 0⟩) := by
  simp [getConnectionStart, initState, RateLimiter.check, lookupEntry, setMapEntry,
    LRUCache.get]

/-- While promise 0 is pending, each further call for the key consumes one
rate token and joins promise 0, provided the window's count stays below the
maximum. -/
theorem runCalls_wait (cfg : MgrConfig) (key : String) (now : Nat) :
    ∀ n cnt : Nat, 1 ≤ cnt → cnt + n ≤ cfg.maxRequests →
      runCalls cfg key now n
        ⟨⟨[], cfg.cacheMaxSize, cfg.cacheTTL⟩, [(key, 0)],
         [(key, ⟨cnt, now + cfg.windowMs⟩)], 1, 1, 0⟩ =
      (List.replicate n (.joined 0),
       ⟨⟨[], cfg.cacheMaxSize, cfg.cacheTTL⟩, [(key, 0)],
        [(key, ⟨cnt + n, now + cfg.windowMs⟩)], 1, 1, 0⟩) := by
  intro n
  induction n with
  | zero => intro cnt h1 h2; simp [runCalls]
  | succ n ih =>
    intro cnt h1 h2
    have hc1 : ¬ (now + cfg.windowMs < now) := by omega
    have hc2 : ¬ (cfg.maxRequests ≤ cnt) := by omega
    have hstep : getConnectionStart cfg
        ⟨⟨[], cfg.cacheMaxSize, cfg.cacheTTL⟩, [(key, 0)],
         [(key, ⟨cnt, now + cfg.windowMs⟩)], 1, 1, 0⟩ key now =
        (.joined 0,
         ⟨⟨[], cfg.cacheMaxSize, cfg.cacheTTL⟩, [(key, 0)],
          [(key, ⟨cnt + 1, now + cfg.windowMs⟩)], 1, 1, 0⟩) := by
      simp [getConnectionStart, RateLimiter.check, lookupEntry, updateEntry,
        LRUCache.get, hc1, hc2]
    rw [runCalls]
    simp only [hstep]
    rw [ih (cnt + 1) (by omega) (by omega)]
    have hcnt : cnt + 1 + n = cnt + (n + 1) := by omega
    rw [hcnt]
    simp [List.replicate_succ]

/-! ### Claim C1 — concurrent first-access deduplication -/

/-- Claim C1 (amended): when `N` concurrent `getConnection` calls for one
key are issued before the first resolves, exactly one establishment task
(one `connect` sequence) is started; the first call claims the pending
slot, and every other call *admitted by the rate limiter* — all of them
when `N` is at most the window maximum, as here — receives the same shared
promise 0, hence observes the single outcome that promise settles with
(never a mix). -/
theorem dedup_concurrent_calls (cfg : MgrConfig) (key : String) (now : Nat) (N : Nat)
    (hN : 1 ≤ N) (hmax : N ≤ cfg.maxRequests) :
    (runCalls cfg key now N (initState cfg)).1 =
      .started 0 :: List.replicate (N - 1) (.joined 0) ∧
    (runCalls cfg key now N (initState cfg)).2.connectsStarted = 1 := by
  cases N with
  | zero => omega
  | succ n =>
    rw [runCalls]
    simp only [getConnectionStart_fresh]
    rw [runCalls_wait cfg key now n 1 (Nat.le_refl 1) (by omega)]
    simp

theorem dedup_concurrent_calls_witness :
    (1 ≤ 3 ∧ 3 ≤ defaultConfig.maxRequests) ∧
    ((runCalls defaultConfig "app1-org1-db1" 5 3 (initState defaultConfig)).1 =
       .started 0 :: List.replicate 2 (.joined 0) ∧
     (runCalls defaultConfig "app1-org1-db1" 5 3 (initState defaultConfig)).2.connectsStarted = 1) :=
  ⟨⟨by decide, by decide⟩,
   dedup_concurrent_calls defaultConfig "app1-org1-db1" 5 3 (by decide) (by decide)⟩

/-- Claim C1 counterexample (claim as stated, without the rate-limit
proviso): with the default configuration, of 11 concurrent calls the 11th
is rejected by the rate limiter (`ConnectionError`) instead of receiving
the shared promise — it is not a `joined` result — even though still
exactly one establishment task was started. -/
theorem dedup_claim_counterexample :
    (runCalls defaultConfig "app1-org1-db1" 5 11 (initState defaultConfig)).1.get? 1 =
      some (.joined 0) ∧
    (runCalls defaultConfig "app1-org1-db1" 5 11 (initState defaultConfig)).1.get? 10 =
      some .rateLimited ∧
    (runCalls defaultConfig "app1-org1-db1" 5 11 (initState defaultConfig)).2.connectsStarted = 1 := by
  decide

/-! ### Claim C5 — failed establishment leaves no trace -/

/-- Claim C5: after `N` concurrent calls share one establishment task
(every waiter holds promise 0, so the settle outcome — here the error after
retries are exhausted — is delivered to each of them identically), settling
with failure removes the pending slot and stores nothing: the cache is
empty for the key (and entirely), while settling the same state with
success is exactly what creates the record. -/
theorem establishment_failure_leaves_no_entry (cfg : MgrConfig) (key : String)
    (now : Nat) (N : Nat) (conn tnow : Nat) (dbType : String)
    (hN : 1 ≤ N) (hmax : N ≤ cfg.maxRequests) :
    (runCalls cfg key now N (initState cfg)).1 =
      .started 0 :: List.replicate (N - 1) (.joined 0) ∧
    (settleFail (runCalls cfg key now N (initState cfg)).2 key).pending = [] ∧
    (settleFail (runCalls cfg key now N (initState cfg)).2 key).cache.entries = [] ∧
    lookupEntry key
      (settleOk (runCalls cfg key now N (initState cfg)).2 key conn dbType tnow).cache.entries =
      some ⟨⟨conn, dbType, tnow⟩, tnow⟩ ∧
    (settleOk (runCalls cfg key now N (initState cfg)).2 key conn dbType tnow).pending = [] := by
  cases N with
  | zero => omega
  | succ n =>
    rw [runCalls]
    simp only [getConnectionStart_fresh]
    rw [runCalls_wait cfg key now n 1 (Nat.le_refl 1) (by omega)]
    refine ⟨by simp, ?_, ?_, ?_, ?_⟩
    · simp [settleFail, eraseEntry]
    · simp [settleFail]
    · simp [settleOk, LRUCache.set, lookupEntry]
    · simp [settleOk, eraseEntry]

theorem establishment_failure_leaves_no_entry_witness :
    (1 ≤ 2 ∧ 2 ≤ defaultConfig.maxRequests) ∧
    ((runCalls defaultConfig "k" 5 2 (initState defaultConfig)).1 =
       .started 0 :: List.replicate 1 (.joined 0) ∧
     (settleFail (runCalls defaultConfig "k" 5 2 (initState defaultConfig)).2 "k").pending = [] ∧
     (settleFail (runCalls defaultConfig "k" 5 2 (initState defaultConfig)).2 "k").cache.entries = [] ∧
     lookupEntry "k"
       (settleOk (runCalls defaultConfig "k" 5 2 (initState defaultConfig)).2 "k" 7 "postgres" 6).cache.entries =
       some ⟨⟨7, "postgres", 6⟩, 6⟩ ∧
     (settleOk (runCalls defaultConfig "k" 5 2 (initState defaultConfig)).2 "k" 7 "postgres" 6).pending = []) :=
  ⟨⟨by decide, by decide⟩,
   establishment_failure_leaves_no_entry defaultConfig "k" 5 2 7 6 "postgres"
     (by decide) (by decide)⟩

/-! ### Claim C7 — lazy validation skips the probe inside the window -/

/-- Claim C7: establish once (call at `t1`, success at `t2`), then call
again at `t3` within the validation window: the second call returns the
identical cached handle without issuing any liveness probe. The window must
have room for the second call (default maximum 10 ≥ 2), the cache-wide TTL
is disabled (the default), and timestamps are the positive, monotone values
`Date.now` produces. -/
theorem sequential_reuse_identical_handle (cfg : MgrConfig) (key : String)
    (t1 t2 t3 conn : Nat) (dbType : String)
    (hmax : 2 ≤ cfg.maxRequests) (httl : cfg.cacheTTL = 0)
    (hv : 1 ≤ cfg.validationTTL) (ht2 : 1 ≤ t2) (_h23 : t2 ≤ t3)
    (hwin : t3 - t2 ≤ cfg.validationTTL) :
    (getConnectionStart cfg
       (settleOk (getConnectionStart cfg (initState cfg) key t1).2 key conn dbType t2)
       key t3).1 = .reused ⟨conn, dbType, t2⟩ ∧
    (getConnectionStart cfg
       (settleOk (getConnectionStart cfg (initState cfg) key t1).2 key conn dbType t2)
       key t3).2.probes = 0 := by
  have hst2 :
      settleOk (⟨⟨[], cfg.cacheMaxSize, cfg.cacheTTL⟩, [(key, 0)],
        [(key, ⟨1, t1 + cfg.windowMs⟩)], 1, 1, 0⟩ : MgrState) key conn dbType t2 =
      ⟨⟨[(key, ⟨⟨conn, dbType, t2⟩, t2⟩)], cfg.cacheMaxSize, cfg.cacheTTL⟩, [],
       [(key, ⟨1, t1 + cfg.windowMs⟩)], 1, 1, 0⟩ := by
    simp [settleOk, LRUCache.set, lookupEntry, eraseEntry]
  have h1 : ¬ (t2 = 0) := by omega
  have h2 : ¬ (cfg.validationTTL = 0) := by omega
  have h3 : ¬ (t3 - t2 > cfg.validationTTL) := by omega
  have hnv : needsValidation cfg ⟨conn, dbType, t2⟩ t3 = false := by
    simp [needsValidation, h1, h2, h3]
  simp only [getConnectionStart_fresh]
  rw [hst2]
  by_cases hw : t1 + cfg.windowMs < t3
  · simp [getConnectionStart, RateLimiter.check, lookupEntry, LRUCache.get,
      updateEntry, setMapEntry, httl, hnv, hw]
  · have hc2 : ¬ (cfg.maxRequests ≤ 1) := by omega
    simp [getConnectionStart, RateLimiter.check, lookupEntry, LRUCache.get,
      updateEntry, httl, hnv, hw, hc2]

theorem sequential_reuse_identical_handle_witness :
    (2 ≤ defaultConfig.maxRequests ∧ defaultConfig.cacheTTL = 0 ∧
     1 ≤ defaultConfig.validationTTL ∧ 1 ≤ 2 ∧ 2 ≤ 3 ∧ 3 - 2 ≤ defaultConfig.validationTTL) ∧
    ((getConnectionStart defaultConfig
        (settleOk (getConnectionStart defaultConfig (initState defaultConfig) "k" 1).2
          "k" 7 "postgres" 2) "k" 3).1 = .reused ⟨7, "postgres", 2⟩ ∧
     (getConnectionStart defaultConfig
        (settleOk (getConnectionStart defaultConfig (initState defaultConfig) "k" 1).2
          "k" 7 "postgres" 2) "k" 3).2.probes = 0) :=
  ⟨⟨by decide, by decide, by decide, by decide, by decide, by decide⟩,
   sequential_reuse_identical_handle defaultConfig "k" 1 2 3 7 "postgres"
     (by decide) (by decide) (by decide) (by decide) (by decide) (by decide)⟩

/-! ### More association-list lemmas (for C4 and C10) -/

theorem lookupEntry_updateEntry_self {K V : Type} [DecidableEq K] (k : K) (f : V → V) :
    ∀ l : List (K × V), lookupEntry k (updateEntry k f l) = Option.map f (lookupEntry k l) := by
  intro l
  induction l with
  | nil => rfl
  | cons p t ih =>
    obtain ⟨k', v⟩ := p
    by_cases h : k' = k <;> simp [updateEntry, lookupEntry, h, ih]

theorem lookupEntry_updateEntry_ne {K V : Type} [DecidableEq K] (k k' : K) (f : V → V)
    (h : k' ≠ k) :
    ∀ l : List (K × V), lookupEntry k' (updateEntry k f l) = lookupEntry k' l := by
  intro l
  induction l with
  | nil => rfl
  | cons p t ih =>
    obtain ⟨k'', v⟩ := p
    by_cases h2 : k'' = k
    · have hne : k'' ≠ k' := fun hh => h (hh.symm.trans h2)
      simp only [updateEntry, if_pos h2, lookupEntry, if_neg hne]
    · simp only [updateEntry, if_neg h2, lookupEntry]
      by_cases h3 : k'' = k'
      · simp only [if_pos h3]
      · simp only [if_neg h3]
        exact ih

theorem lookupEntry_eraseEntry_ne {K V : Type} [DecidableEq K] (k k' : K) (h : k' ≠ k) :
    ∀ l : List (K × V), lookupEntry k' (eraseEntry k l) = lookupEntry k' l := by
  intro l
  induction l with
  | nil => rfl
  | cons p t ih =>
    obtain ⟨k'', v⟩ := p
    by_cases h2 : k'' = k
    · have hne : k'' ≠ k' := fun hh => h (hh.symm.trans h2)
      simp only [eraseEntry, if_pos h2, lookupEntry, if_neg hne]
    · simp only [eraseEntry, if_neg h2, lookupEntry]
      by_cases h3 : k'' = k'
      · simp only [if_pos h3]
      · simp only [if_neg h3]
        exact ih

theorem lookupEntry_eq_none_of_not_mem {K V : Type} [DecidableEq K] (k : K) :
    ∀ l : List (K × V), k ∉ l.map Prod.fst → lookupEntry k l = none := by
  intro l
  induction l with
  | nil => intro _; rfl
  | cons p t ih =>
    obtain ⟨k', v⟩ := p
    intro hmem
    simp only [List.map_cons, List.mem_cons] at hmem
    push_neg at hmem
    have hne : k' ≠ k := fun hh => hmem.1 hh.symm
    simp only [lookupEntry, if_neg hne]
    exact ih hmem.2

theorem lookupEntry_eraseEntry_self {K V : Type} [DecidableEq K] (k : K) :
    ∀ l : List (K × V), (l.map Prod.fst).Nodup → lookupEntry k (eraseEntry k l) = none := by
  intro l
  induction l with
  | nil => intro _; rfl
  | cons p t ih =>
    obtain ⟨k', v⟩ := p
    intro hnd
    simp only [List.map_cons, List.nodup_cons] at hnd
    by_cases h2 : k' = k
    · subst h2
      simp only [eraseEntry, if_pos rfl]
      exact lookupEntry_eq_none_of_not_mem k' t hnd.1
    · simp only [eraseEntry, if_neg h2, lookupEntry, if_neg h2]
      exact ih hnd.2

theorem updateEntry_map_fst {K V : Type} [DecidableEq K] (k : K) (f : V → V) :
    ∀ l : List (K × V), (updateEntry k f l).map Prod.fst = l.map Prod.fst := by
  intro l
  induction l with
  | nil => rfl
  | cons p t ih =>
    obtain ⟨k', v⟩ := p
    by_cases h : k' = k <;> simp [updateEntry, h, ih]

theorem lookupEntry_setMapEntry_self {K V : Type} [DecidableEq K] (k : K) (v : V)
    (l : List (K × V)) : lookupEntry k (setMapEntry k v l) = some v := by
  unfold setMapEntry
  by_cases h : (lookupEntry k l).isSome
  · rw [if_pos h, lookupEntry_updateEntry_self]
    cases hl : lookupEntry k l with
    | none => rw [hl] at h; simp at h
    | some w => simp
  · rw [if_neg h]
    have hnone : lookupEntry k l = none := by
      cases hl : lookupEntry k l with
      | none => rfl
      | some w => rw [hl] at h; simp at h
    have happ : ∀ l' : List (K × V), lookupEntry k l' = none →
        lookupEntry k (l' ++ [(k, v)]) = some v := by
      intro l'
      induction l' with
      | nil => intro _; simp [lookupEntry]
      | cons p t ih =>
        obtain ⟨k', w⟩ := p
        intro hl
        by_cases h2 : k' = k
        · rw [lookupEntry, if_pos h2] at hl; exact absurd hl (by simp)
        · rw [List.cons_append, lookupEntry, if_neg h2]
          rw [lookupEntry, if_neg h2] at hl
          exact ih hl
    exact happ l hnone

/-! ### Claim C4 — the rate-limit window -/

/-- Claim C4 (amended): the per-key fixed window gates *every*
`getConnection` call, not establishment attempts only. When the key's
window is full (`count ≥ maxRequests`) and not yet expired, the call is
rejected (`ConnectionError`) with the entire state unchanged — in
particular no establishment task and hence no retry attempt is consumed;
the first call after the window expires is admitted and opens a fresh
window with `count = 1`. -/
theorem rate_limit_gates_every_call (cfg : MgrConfig) (st : MgrState) (key : String)
    (now : Nat) (e : RateLimitEntry) (he : lookupEntry key st.rate = some e) :
    (cfg.maxRequests ≤ e.count → now ≤ e.resetTime →
      (getConnectionStart cfg st key now).1 = .rateLimited ∧
      (getConnectionStart cfg st key now).2 = st) ∧
    (e.resetTime < now →
      (getConnectionStart cfg st key now).1 ≠ .rateLimited ∧
      lookupEntry key (getConnectionStart cfg st key now).2.rate =
        some ⟨1, now + cfg.windowMs⟩) := by
  constructor
  · intro hcnt hwin
    have h1 : ¬ (e.resetTime < now) := by omega
    have hchk : RateLimiter.check cfg.maxRequests cfg.windowMs st.rate key now =
        (false, st.rate) := by
      simp [RateLimiter.check, he, h1, hcnt]
    simp [getConnectionStart, hchk]
  · intro hwin
    have hchk : RateLimiter.check cfg.maxRequests cfg.windowMs st.rate key now =
        (true, setMapEntry key ⟨1, now + cfg.windowMs⟩ st.rate) := by
      simp [RateLimiter.check, he, hwin]
    constructor
    · simp only [getConnectionStart, hchk]
      cases hp : lookupEntry key st.pending with
      | some pid => simp [hp]
      | none =>
        cases hcget : (st.cache.get key now).1 with
        | some cached =>
          by_cases hnv : needsValidation cfg cached now <;> simp [hp, hcget, hnv]
        | none => simp [hp, hcget]
    · simp only [getConnectionStart, hchk]
      cases hp : lookupEntry key st.pending with
      | some pid => simp [hp, lookupEntry_setMapEntry_self]
      | none =>
        cases hcget : (st.cache.get key now).1 with
        | some cached =>
          by_cases hnv : needsValidation cfg cached now <;>
            simp [hp, hcget, hnv, lookupEntry_setMapEntry_self]
        | none => simp [hp, hcget, lookupEntry_setMapEntry_self]

theorem rate_limit_gates_every_call_witness :
    (lookupEntry "k"
       [("k", (⟨10, 1000⟩ : RateLimitEntry))] = some ⟨10, 1000⟩) ∧
    ((defaultConfig.maxRequests ≤ 10 → 500 ≤ 1000 →
       (getConnectionStart defaultConfig
          ⟨⟨[], 100, 0⟩, [], [("k", ⟨10, 1000⟩)], 0, 0, 0⟩ "k" 500).1 = .rateLimited ∧
       (getConnectionStart defaultConfig
          ⟨⟨[], 100, 0⟩, [], [("k", ⟨10, 1000⟩)], 0, 0, 0⟩ "k" 500).2 =
         ⟨⟨[], 100, 0⟩, [], [("k", ⟨10, 1000⟩)], 0, 0, 0⟩) ∧
     (1000 < 500 →
       (getConnectionStart defaultConfig
          ⟨⟨[], 100, 0⟩, [], [("k", ⟨10, 1000⟩)], 0, 0, 0⟩ "k" 500).1 ≠ .rateLimited ∧
       lookupEntry "k" (getConnectionStart defaultConfig
          ⟨⟨[], 100, 0⟩, [], [("k", ⟨10, 1000⟩)], 0, 0, 0⟩ "k" 500).2.rate =
         some ⟨1, 500 + defaultConfig.windowMs⟩)) :=
  ⟨by decide,
   rate_limit_gates_every_call defaultConfig
     ⟨⟨[], 100, 0⟩, [], [("k", ⟨10, 1000⟩)], 0, 0, 0⟩ "k" 500 ⟨10, 1000⟩ (by decide)⟩

/-- Claim C4 counterexample (claim as stated): with the default
configuration, establish once at `t = 1`, then make ten more calls at
`t = 3`. Calls 2–10 are served from the cache (`reused`, no establishment),
yet each consumed a window token, so the 11th call is rejected as
rate-limited even though a live, within-window record sits in the cache —
contradicting "a getConnection() call served from the cache is never
rejected as rate-limited" and "the window gates establishment attempts
only". -/
theorem cache_hit_rate_limited_counterexample :
    (runCalls defaultConfig "k" 3 10
       (settleOk (getConnectionStart defaultConfig (initState defaultConfig) "k" 1).2
         "k" 5 "postgres" 2)).1.get? 8 = some (.reused ⟨5, "postgres", 2⟩) ∧
    (runCalls defaultConfig "k" 3 10
       (settleOk (getConnectionStart defaultConfig (initState defaultConfig) "k" 1).2
         "k" 5 "postgres" 2)).1.get? 9 = some .rateLimited ∧
    (lookupEntry "k"
       (runCalls defaultConfig "k" 3 10
         (settleOk (getConnectionStart defaultConfig (initState defaultConfig) "k" 1).2
           "k" 5 "postgres" 2)).2.cache.entries).isSome = true ∧
    needsValidation defaultConfig ⟨5, "postgres", 2⟩ 3 = false := by
  decide

/-! ### Claim C8 — closeAllConnections drains everything -/

/-- Claim C8: whatever the state and whatever subset of the underlying
`close()` calls raise (the arbitrary `closer` oracle), `closeAllConnections`
leaves the connection cache at size 0, the pending table empty and the
rate-limiter state cleared; each close failure is swallowed inside
`_closeAndLog`, so exactly as many close attempts are made as under any
other failure pattern — a failure never aborts draining the rest. -/
theorem closeAll_drains_and_clears (st : MgrState)
    (closer closerOther : String → Except String Unit) (now : Nat) :
    (closeAllConnections st closer now).1.cache.size = 0 ∧
    (closeAllConnections st closer now).1.pending = [] ∧
    (closeAllConnections st closer now).1.rate = [] ∧
    (closeAllConnections st closer now).2.length =
      (closeAllConnections st closerOther now).2.length := by
  refine ⟨?_, ?_, ?_, ?_⟩
  · simp [closeAllConnections, LRUCache.size, LRUCache.clear]
  · simp [closeAllConnections]
  · simp [closeAllConnections, RateLimiter.clear]
  · simp [closeAllConnections]

/-! ### Claim C10 — closeConnection -/

/-- Claim C10 (amended): `closeConnection` always leaves the cache with no
entry for the key and every other key's entry untouched. When the lookup
hits (an unexpired record), that record is closed, removed, and the key's
rate window is reset (other keys' windows untouched); when the lookup
misses, nothing is closed and the rate limiter is completely untouched —
but the cache is *not* necessarily unchanged: an expired entry for the key
is purged by the lookup itself. Registry key-lists are duplicate-free, as
every reachable state's are. -/
theorem closeConnection_spec (st : MgrState) (key : String) (now : Nat)
    (hnc : (st.cache.entries.map Prod.fst).Nodup)
    (hnr : (st.rate.map Prod.fst).Nodup) :
    lookupEntry key (closeConnection st key now).1.cache.entries = none ∧
    (∀ k', k' ≠ key →
       lookupEntry k' (closeConnection st key now).1.cache.entries =
         lookupEntry k' st.cache.entries) ∧
    (match (st.cache.get key now).1 with
     | some c =>
         (closeConnection st key now).2 = [c] ∧
         lookupEntry key (closeConnection st key now).1.rate = none ∧
         ∀ k', k' ≠ key →
           lookupEntry k' (closeConnection st key now).1.rate = lookupEntry k' st.rate
     | none =>
         (closeConnection st key now).2 = [] ∧
         (closeConnection st key now).1.rate = st.rate) := by
  unfold closeConnection
  cases hl : lookupEntry key st.cache.entries with
  | none =>
    have hget : st.cache.get key now = (none, st.cache) := by
      simp [LRUCache.get, hl]
    rw [hget]
    exact ⟨hl, fun _ _ => rfl, rfl, rfl⟩
  | some entry =>
    by_cases hexp : st.cache.ttl ≠ 0 ∧ now - entry.lastAccessed > st.cache.ttl
    · have hget : st.cache.get key now =
          (none, { st.cache with entries := eraseEntry key st.cache.entries }) := by
        simp [LRUCache.get, hl, hexp]
      rw [hget]
      refine ⟨lookupEntry_eraseEntry_self key st.cache.entries hnc,
              fun k' hk' => lookupEntry_eraseEntry_ne key k' hk' st.cache.entries,
              rfl, rfl⟩
    · have hget : st.cache.get key now =
          (some entry.value,
           { st.cache with
             entries := updateEntry key (fun e' => { e' with lastAccessed := now })
               st.cache.entries }) := by
        simp [LRUCache.get, hl, hexp]
      rw [hget]
      have hupd : ((updateEntry key (fun e' => { e' with lastAccessed := now })
          st.cache.entries).map Prod.fst).Nodup := by
        rw [updateEntry_map_fst]; exact hnc
      refine ⟨?_, ?_, ?_, ?_, ?_⟩
      · exact lookupEntry_eraseEntry_self key _ hupd
      · intro k' hk'
        exact (lookupEntry_eraseEntry_ne key k' hk' _).trans
          (lookupEntry_updateEntry_ne key k' _ hk' _)
      · rfl
      · exact lookupEntry_eraseEntry_self key st.rate hnr
      · intro k' hk'
        exact lookupEntry_eraseEntry_ne key k' hk' st.rate

theorem closeConnection_spec_witness :
    (((⟨⟨[("k", ⟨⟨7, "postgres", 2⟩, 2⟩)], 100, 0⟩, [], [("k", ⟨4, 900⟩)], 1, 1, 0⟩ :
        MgrState).cache.entries.map Prod.fst).Nodup ∧
     (([("k", (⟨4, 900⟩ : RateLimitEntry))].map Prod.fst).Nodup)) ∧
    (lookupEntry "k" (closeConnection
        ⟨⟨[("k", ⟨⟨7, "postgres", 2⟩, 2⟩)], 100, 0⟩, [], [("k", ⟨4, 900⟩)], 1, 1, 0⟩
        "k" 10).1.cache.entries = none ∧
     (∀ k', k' ≠ "k" →
        lookupEntry k' (closeConnection
          ⟨⟨[("k", ⟨⟨7, "postgres", 2⟩, 2⟩)], 100, 0⟩, [], [("k", ⟨4, 900⟩)], 1, 1, 0⟩
          "k" 10).1.cache.entries =
        lookupEntry k' (⟨⟨[("k", ⟨⟨7, "postgres", 2⟩, 2⟩)], 100, 0⟩, [], [("k", ⟨4, 900⟩)],
          1, 1, 0⟩ : MgrState).cache.entries) ∧
     (match ((⟨⟨[("k", ⟨⟨7, "postgres", 2⟩, 2⟩)], 100, 0⟩, [], [("k", ⟨4, 900⟩)], 1, 1, 0⟩ :
         MgrState).cache.get "k" 10).1 with
      | some c =>
          (closeConnection
            ⟨⟨[("k", ⟨⟨7, "postgres", 2⟩, 2⟩)], 100, 0⟩, [], [("k", ⟨4, 900⟩)], 1, 1, 0⟩
            "k" 10).2 = [c] ∧
          lookupEntry "k" (closeConnection
            ⟨⟨[("k", ⟨⟨7, "postgres", 2⟩, 2⟩)], 100, 0⟩, [], [("k", ⟨4, 900⟩)], 1, 1, 0⟩
            "k" 10).1.rate = none ∧
          ∀ k', k' ≠ "k" →
            lookupEntry k' (closeConnection
              ⟨⟨[("k", ⟨⟨7, "postgres", 2⟩, 2⟩)], 100, 0⟩, [], [("k", ⟨4, 900⟩)], 1, 1, 0⟩
              "k" 10).1.rate =
            lookupEntry k' [("k", (⟨4, 900⟩ : RateLimitEntry))]
      | none =>
          (closeConnection
            ⟨⟨[("k", ⟨⟨7, "postgres", 2⟩, 2⟩)], 100, 0⟩, [], [("k", ⟨4, 900⟩)], 1, 1, 0⟩
            "k" 10).2 = [] ∧
          (closeConnection
            ⟨⟨[("k", ⟨⟨7, "postgres", 2⟩, 2⟩)], 100, 0⟩, [], [("k", ⟨4, 900⟩)], 1, 1, 0⟩
            "k" 10).1.rate = [("k", ⟨4, 900⟩)])) :=
  ⟨⟨by decide, by decide⟩,
   closeConnection_spec
     ⟨⟨[("k", ⟨⟨7, "postgres", 2⟩, 2⟩)], 100, 0⟩, [], [("k", ⟨4, 900⟩)], 1, 1, 0⟩
     "k" 10 (by decide) (by decide)⟩

/-- Claim C10 counterexample (claim as stated): with a cache TTL of 100 ms
and an entry last touched at `t = 1`, `closeConnection` at `t = 300` finds
no cached record (the entry is expired), closes nothing and leaves the rate
limiter alone — but it does *not* leave the cache unchanged: the expired
entry has been purged by the lookup. -/
theorem closeConnection_purges_expired_counterexample :
    (closeConnection
       ⟨⟨[("k", ⟨⟨7, "postgres", 1⟩, 1⟩)], 100, 100⟩, [], [("k", ⟨3, 500⟩)], 1, 1, 0⟩
       "k" 300).2 = [] ∧
    lookupEntry "k"
      ((⟨⟨[("k", ⟨⟨7, "postgres", 1⟩, 1⟩)], 100, 100⟩, [], [("k", ⟨3, 500⟩)], 1, 1, 0⟩ :
        MgrState).cache.entries) = some ⟨⟨7, "postgres", 1⟩, 1⟩ ∧
    lookupEntry "k"
      (closeConnection
        ⟨⟨[("k", ⟨⟨7, "postgres", 1⟩, 1⟩)], 100, 100⟩, [], [("k", ⟨3, 500⟩)], 1, 1, 0⟩
        "k" 300).1.cache.entries = none ∧
    (closeConnection
       ⟨⟨[("k", ⟨⟨7, "postgres", 1⟩, 1⟩)], 100, 100⟩, [], [("k", ⟨3, 500⟩)], 1, 1, 0⟩
       "k" 300).1.rate = [("k", ⟨3, 500⟩)] := by
  decide

end Multibridge
